import Mathlib

/-!
Shallow embedding of `src/clibs/noot.h`, the value runtime of the noot
language: the tagged `NootValue` union, the dispatch operators
(`noot_add` … `noot_ge`), the printer `noot_print`, logical `noot_not`,
truthiness `noot_is_true` and the assertion primitive `noot_assert`.

Modelling conventions:
* C `long` is modelled as `ℤ` (signed overflow is undefined behavior in the
  source, so no wrap-around is modelled; no claim exercises overflow).
* C `double` is modelled as `ℚ`; IEEE rounding, infinities and NaN are not
  representable (no claim depends on them; `fmod` with a zero divisor, which
  yields NaN in C, is noted at its definition).
* Pointers used only for identity (`Function`, `Closure.f`, the captures
  array) are modelled as `Nat` ids; pointer order stands in for the
  (unspecified) C pointer comparison.
* Code paths that are undefined behavior in the C source (falling off the end
  of a non-void function, dereferencing a null pointer, reading before a
  buffer) are modelled explicitly as `Outcome.undefined` / `Option.none`.
* A call to `noot_panic_impl` (process exit) is modelled as `Outcome.panic`
  carrying what would be printed.
-/

/-- The `NootType` enum of `noot.h`. -/
inductive NootType where
  | Nil
  | Bool
  | Int
  | Real
  | String
  | List
  | Tree
  | Function
  | Closure
  | Error
deriving DecidableEq, Repr

/-- The `noot_type_names` table; note `Closure` also maps to `"function"`. -/
def noot_type_names : NootType → String
  | .Nil => "nil"
  | .Bool => "bool"
  | .Int => "int"
  | .Real => "real"
  | .String => "string"
  | .List => "list"
  | .Tree => "tree"
  | .Function => "function"
  | .Closure => "function"
  | .Error => "error"

/-- A `NootValue`: the discriminant together with its active payload.
`VString` carries the byte buffer as a list of bytes (the explicit length of
`NootString` is the list length). `VList` carries the `head` and `tail`
pointers (`none` = NULL). `VTree` carries the data pointer (assumed non-null,
as the printer dereferences it unconditionally) and the optional children.
`VFunction`/`VClosure` carry pointer identities. `VError` carries the wrapped
value (the payload pointer is non-null by invariant). -/
inductive NootValue where
  | VNil
  | VBool (b : Bool)
  | VInt (i : ℤ)
  | VReal (r : ℚ)
  | VString (s : List ℕ)
  | VList (head : Option NootValue) (tail : Option NootValue)
  | VTree (data : NootValue) (left : Option NootValue) (right : Option NootValue)
  | VFunction (fid : ℕ)
  | VClosure (fid : ℕ) (caps : ℕ)
  | VError (inner : NootValue)

/-- The discriminant of a value, `val.type` in the source. Maps a value to of a value. -/
def typeOf : NootValue → NootType
  | .VNil => .Nil
  | .VBool _ => .Bool
  | .VInt _ => .Int
  | .VReal _ => .Real
  | .VString _ => .String
  | .VList _ _ => .List
  | .VTree _ _ _ => .Tree
  | .VFunction _ => .Function
  | .VClosure _ _ => .Closure
  | .VError _ => .Error

/-- A fatal panic (`noot_panic_impl` exits the process). `typeError` carries
the message formatted by `noot_binary_type_panic`/`noot_unary_type_panic`;
`userPanic` carries the argument list handed to `noot_panic`, whose first
element (or nil) is printed as the payload. -/
inductive NootPanic where
  | typeError (msg : String)
  | userPanic (args : List NootValue)

/-- Result of running a piece of the runtime: a normal value, a fatal panic,
or undefined behavior in the C source. -/
inductive Outcome (α : Type) where
  | ok (a : α)
  | panic (p : NootPanic)
  | undefined

/-- Post-compose a function on the `ok` case. -/
def Outcome.map {α β : Type} (f : α → β) : Outcome α → Outcome β
  | .ok a => .ok (f a)
  | .panic p => .panic p
  | .undefined => .undefined

/-- Model of `sprintf` restricted to `%s` conversions: substitute the arguments for
successive `%s` occurrences in the template (the only use the source makes
of `sprintf` in its panic helpers). -/
def substFmt : List Char → List String → List Char
  | '%' :: 's' :: rest, a :: as => a.data ++ substFmt rest as
  | c :: rest, as => c :: substFmt rest as
  | [], _ => []

/-- Model of `noot_binary_type_panic`: format the message with the two type names and
panic. -/
def noot_binary_type_panic (message : String) (a b : NootType) : NootPanic :=
  .typeError (String.mk (substFmt message.data [noot_type_names a, noot_type_names b]))

/-- Model of `noot_unary_type_panic`: format the message with one type name and
panic. -/
def noot_unary_type_panic (message : String) (ty : NootType) : NootPanic :=
  .typeError (String.mk (substFmt message.data [noot_type_names ty]))

/-- Model of `noot_add`. In the C source the `case Int:` arm falls through into
`case Real:` when `b` matches neither inner case, but the `Real` inner switch
then also fails to match, so every pair outside \x7bInt,Real\x7d²
reaches the panic, exactly as modelled by the final catch-all here. -/
def noot_add : NootValue → NootValue → Outcome NootValue
  | .VInt a, .VInt b => .ok (.VInt (a + b))
  | .VInt a, .VReal b => .ok (.VReal ((a : ℚ) + b))
  | .VReal a, .VInt b => .ok (.VReal (a + (b : ℚ)))
  | .VReal a, .VReal b => .ok (.VReal (a + b))
  | a, b => .panic (noot_binary_type_panic
      "Attempted to add incompatible types %s and %s" (typeOf a) (typeOf b))

/-- Model of `noot_sub`. -/
def noot_sub : NootValue → NootValue → Outcome NootValue
  | .VInt a, .VInt b => .ok (.VInt (a - b))
  | .VInt a, .VReal b => .ok (.VReal ((a : ℚ) - b))
  | .VReal a, .VInt b => .ok (.VReal (a - (b : ℚ)))
  | .VReal a, .VReal b => .ok (.VReal (a - b))
  | a, b => .panic (noot_binary_type_panic
      "Attempted to subtract incompatible types %s and %s" (typeOf a) (typeOf b))

/-- Model of `noot_mul` (the wording of the panic template is a typo present in the source). -/
def noot_mul : NootValue → NootValue → Outcome NootValue
  | .VInt a, .VInt b => .ok (.VInt (a * b))
  | .VInt a, .VReal b => .ok (.VReal ((a : ℚ) * b))
  | .VReal a, .VInt b => .ok (.VReal (a * (b : ℚ)))
  | .VReal a, .VReal b => .ok (.VReal (a * b))
  | a, b => .panic (noot_binary_type_panic
      "Attempted to subtract multiply types %s and %s" (typeOf a) (typeOf b))

/-- Model of `noot_div`. C integer division truncates toward zero (`Int.tdiv`);
dividing an integer by zero is undefined behavior, modelled as `undefined`.
Real division by zero yields an IEEE infinity in C, which `ℚ` cannot
represent (no claim exercises it). -/
def noot_div : NootValue → NootValue → Outcome NootValue
  | .VInt a, .VInt b => if b = 0 then .undefined else .ok (.VInt (a.tdiv b))
  | .VInt a, .VReal b => .ok (.VReal ((a : ℚ) / b))
  | .VReal a, .VInt b => .ok (.VReal (a / (b : ℚ)))
  | .VReal a, .VReal b => .ok (.VReal (a / b))
  | a, b => .panic (noot_binary_type_panic
      "Attempted to divide incompatible types %s and %s" (typeOf a) (typeOf b))

/-- Truncation toward zero, as C `trunc` / integer conversion. -/
def ratTrunc (q : ℚ) : ℤ := q.num.tdiv (q.den : ℤ)

/-- C `fmod x y = x - trunc(x/y) * y` on doubles. For `y = 0` C produces
NaN, which `ℚ` cannot represent (the model then yields `x`, a point no claim
touches). -/
def cFmod (x y : ℚ) : ℚ := x - (ratTrunc (x / y) : ℚ) * y

/-- Model of `noot_rem`. C `%` is the truncating remainder (`Int.tmod`); `% 0` on
integers is undefined behavior; the mixed and real cases use `fmod`
(the wording of the panic template copies the division
message, as in the source). -/
def noot_rem : NootValue → NootValue → Outcome NootValue
  | .VInt a, .VInt b => if b = 0 then .undefined else .ok (.VInt (a.tmod b))
  | .VInt a, .VReal b => .ok (.VReal (cFmod (a : ℚ) b))
  | .VReal a, .VInt b => .ok (.VReal (cFmod a (b : ℚ)))
  | .VReal a, .VReal b => .ok (.VReal (cFmod a b))
  | a, b => .panic (noot_binary_type_panic
      "Attempted to divide incompatible types %s and %s" (typeOf a) (typeOf b))

/-- The byte loop of the `String` case of `noot_eq_impl`: compare bytes from
index `i` upward (run only when the lengths are already known equal). -/
def strEqLoop (a b : List ℕ) (i : ℕ) : Bool :=
  if i < a.length then
    if a.getD i 0 ≠ b.getD i 0 then false else strEqLoop a b (i + 1)
  else true
termination_by a.length - i

/-- The byte loop of the `String` case of `noot_lt_impl`: scan up to the
shorter length; the first differing byte decides, otherwise compare
lengths. -/
def strLtLoop (a b : List ℕ) (i : ℕ) : Bool :=
  if i < min a.length b.length then
    let ac := a.getD i 0
    let bc := b.getD i 0
    if ac ≠ bc then decide (ac < bc) else strLtLoop a b (i + 1)
  else decide (a.length < b.length)
termination_by min a.length b.length - i

/-- The byte loop of the `String` case of `noot_gt_impl`. -/
def strGtLoop (a b : List ℕ) (i : ℕ) : Bool :=
  if i < min a.length b.length then
    let ac := a.getD i 0
    let bc := b.getD i 0
    if ac ≠ bc then decide (ac > bc) else strGtLoop a b (i + 1)
  else decide (a.length > b.length)
termination_by min a.length b.length - i

/-- Model of `noot_eq_impl`. The switch has no `List` or `Tree` case and the function
has no return statement after the switch, so for those discriminants on the
left control falls off the end of a non-void function: undefined behavior,
modelled as `undefined`. -/
def noot_eq_impl : NootValue → NootValue → Outcome Bool
  | .VNil, b => .ok (decide (typeOf b = .Nil))
  | .VBool x, .VBool y => .ok (x == y)
  | .VBool _, _ => .ok false
  | .VInt x, .VInt y => .ok (decide (x = y))
  | .VInt x, .VReal y => .ok (decide ((x : ℚ) = y))
  | .VInt _, _ => .ok false
  | .VReal x, .VInt y => .ok (decide (x = (y : ℚ)))
  | .VReal x, .VReal y => .ok (decide (x = y))
  | .VReal _, _ => .ok false
  | .VString x, .VString y =>
      .ok (if x.length = y.length then strEqLoop x y 0 else false)
  | .VString _, _ => .ok false
  | .VFunction f, .VFunction g => .ok (f == g)
  | .VFunction _, _ => .ok false
  | .VClosure f _, .VClosure g _ => .ok (f == g)
  | .VClosure _ _, _ => .ok false
  | .VError x, .VError y => noot_eq_impl x y
  | .VError _, _ => .ok false
  | .VList _ _, _ => .undefined
  | .VTree _ _ _, _ => .undefined

/-- The panic every unmatched case of `noot_lt_impl`/`noot_gt_impl` reaches. -/
def cmpPanic (a b : NootValue) : Outcome Bool :=
  .panic (noot_binary_type_panic
    "Attempted to compare incompatible types %s and %s" (typeOf a) (typeOf b))

/-- Model of `noot_lt_impl`. Here `Nil`, `List` and `Tree` have no case in the switch and
fall to the panic; an `Error` pair returns `noot_eq_impl` on the payloads
(the delegation to equality written in the source). -/
def noot_lt_impl : NootValue → NootValue → Outcome Bool
  | .VBool x, .VBool y => .ok (!x && y)
  | .VInt x, .VInt y => .ok (decide (x < y))
  | .VInt x, .VReal y => .ok (decide ((x : ℚ) < y))
  | .VReal x, .VInt y => .ok (decide (x < (y : ℚ)))
  | .VReal x, .VReal y => .ok (decide (x < y))
  | .VString x, .VString y => .ok (strLtLoop x y 0)
  | .VFunction f, .VFunction g => .ok (decide (f < g))
  | .VClosure f _, .VClosure g _ => .ok (decide (f < g))
  | .VError x, .VError y => noot_eq_impl x y
  | a, b => cmpPanic a b

/-- Model of `noot_gt_impl`: mirror image of `noot_lt_impl`, with the same delegation
to equality for an `Error` pair. -/
def noot_gt_impl : NootValue → NootValue → Outcome Bool
  | .VBool x, .VBool y => .ok (x && !y)
  | .VInt x, .VInt y => .ok (decide (x > y))
  | .VInt x, .VReal y => .ok (decide ((x : ℚ) > y))
  | .VReal x, .VInt y => .ok (decide (x > (y : ℚ)))
  | .VReal x, .VReal y => .ok (decide (x > y))
  | .VString x, .VString y => .ok (strGtLoop x y 0)
  | .VFunction f, .VFunction g => .ok (decide (f > g))
  | .VClosure f _, .VClosure g _ => .ok (decide (f > g))
  | .VError x, .VError y => noot_eq_impl x y
  | a, b => cmpPanic a b

/-- Model of `noot_eq`: wrap `noot_eq_impl` in a Bool value. -/
def noot_eq (a b : NootValue) : Outcome NootValue :=
  (noot_eq_impl a b).map .VBool

/-- Model of `noot_neq`. -/
def noot_neq (a b : NootValue) : Outcome NootValue :=
  (noot_eq_impl a b).map (fun r => .VBool (!r))

/-- Model of `noot_lt`. -/
def noot_lt (a b : NootValue) : Outcome NootValue :=
  (noot_lt_impl a b).map .VBool

/-- Model of `noot_le`: `noot_lt_impl(a,b) || noot_eq_impl(a,b)` with C
short-circuiting (a panic in the left operand aborts before the right runs). -/
def noot_le (a b : NootValue) : Outcome NootValue :=
  match noot_lt_impl a b with
  | .ok true => .ok (.VBool true)
  | .ok false => (noot_eq_impl a b).map .VBool
  | .panic p => .panic p
  | .undefined => .undefined

/-- Model of `noot_gt`. -/
def noot_gt (a b : NootValue) : Outcome NootValue :=
  (noot_gt_impl a b).map .VBool

/-- Model of `noot_ge`: `noot_gt_impl(a,b) || noot_eq_impl(a,b)` short-circuited. -/
def noot_ge (a b : NootValue) : Outcome NootValue :=
  match noot_gt_impl a b with
  | .ok true => .ok (.VBool true)
  | .ok false => (noot_eq_impl a b).map .VBool
  | .panic p => .panic p
  | .undefined => .undefined

/-- Model of `noot_is_true`: Bool as-is; for every other discriminant, truthy unless
Nil or Error. (The C expression reads the `Bool` union member even for
non-Bool values, but multiplies it by zero; the arithmetic-of-booleans trick
is modelled by its evident value.) -/
def noot_is_true (val : NootValue) : Bool :=
  match val with
  | .VBool b => b
  | v => decide (typeOf v ≠ .Nil ∧ typeOf v ≠ .Error)

/-- Model of `noot_not` (variadic): a missing first argument is Nil; Bool inverts,
every other value maps to `type == Nil`. -/
def noot_not (args : List NootValue) : NootValue :=
  let val := args.headD .VNil
  match val with
  | .VBool b => .VBool (!b)
  | v => .VBool (decide (typeOf v = .Nil))

/-- Model of `noot_assert` (variadic): missing condition is Nil; a truthy condition is
returned unchanged; a falsy one panics, with `args[1..]` as the payload when
`count >= 2` and the whole argument list otherwise. -/
def noot_assert (args : List NootValue) : Outcome NootValue :=
  let val := args.headD .VNil
  if noot_is_true val then .ok val
  else if 2 ≤ args.length then .panic (.userPanic (args.drop 1))
  else .panic (.userPanic args)

/-- Decimal digits of `k` left-padded with zeros to width 6, as `sprintf`
produces for the fractional part of `%f`. -/
def pad6 (k : ℕ) : String :=
  let s := toString k
  String.mk (List.replicate (6 - s.length) '0') ++ s

/-- The text `sprintf(str, "%f", r)` deposits: fixed-point with exactly six
fractional digits, `-` sign for negatives. Rounding at the sixth decimal is
to nearest, half away from zero; a C double can never be an exact half-tie
at the sixth decimal (its value is a dyadic rational), so the tie direction
is unobservable in the source. -/
def fixed6 (q : ℚ) : String :=
  let n : ℕ := (2 * q.num.natAbs * 1000000 + q.den) / (2 * q.den)
  (if q.num < 0 then "-" else "") ++ toString (n / 1000000) ++ "." ++ pad6 (n % 1000000)

/-- The stripping loop `while (str[i] == '0' || str[i] == '.') i--;` of the
`Real` case of `noot_print`, started at index `i`: returns the index the
loop stops at, or `none` when the scan would move to index `-1` and read
before the buffer (undefined behavior). -/
def scanIdx (s : List Char) : ℕ → Option ℕ
  | 0 =>
    match s[0]? with
    | none => none
    | some c => if c = '0' ∨ c = '.' then none else some 0
  | j + 1 =>
    match s[j + 1]? with
    | none => none
    | some c => if c = '0' ∨ c = '.' then scanIdx s j else some (j + 1)

/-- Output of the `Real` case of `noot_print` on the formatted text `s`:
`strlen`, early break on an empty string, then the backward strip loop and
`printf("%*.*s", i + 1, i + 1, str)`, which prints the first `i + 1`
characters. -/
def scanPrint (s : List Char) : Option (List Char) :=
  match s.length with
  | 0 => some []
  | n + 1 => (scanIdx s n).map (fun j => s.take (j + 1))

/-- The full `Real` case of `noot_print`: format into the 50-byte buffer
(text longer than 49 characters overflows it — undefined behavior), then
strip and print. -/
def printRealStr (q : ℚ) : Option String :=
  let s := fixed6 q
  if 49 < s.length then none
  else (scanPrint s.data).map String.mk

/-- The `String` case of the printer: exactly `len` raw bytes. -/
def byteRender (s : List ℕ) : String :=
  String.mk (s.map Char.ofNat)

/-- Weight used in the termination measure of the printer: entering the list
loop on a `List` value costs nothing, leaving it on a non-list trailing
value re-enters `noot_print_value` once. -/
def loopWeight : NootValue → ℕ
  | .VList _ _ => 0
  | _ => 2

mutual

/-- Model of `noot_print` on a single value (every internal recursive call in
the C source passes `count = 1`): the text it writes, or `none` when the
behavior of the source is undefined or non-terminating on that value. The `Int` case uses
`printf("%d", ...)`, which formats the (small) integers every claim
exercises exactly as decimal; `Function` and `Closure` both print
`function`; `Error` prints an `Error: ` prefix then the payload. -/
def noot_print_value : NootValue → Option String
  | .VNil => some "nil"
  | .VBool b => some (if b then "true" else "false")
  | .VInt i => some (toString i)
  | .VReal q => printRealStr q
  | .VString s => some (byteRender s)
  | .VList h t =>
      (printLoop (.VList h t) false).map (fun body => "[" ++ body ++ "]")
  | .VTree d l r =>
      (match l with
        | some lv => noot_print_value lv
        | none => some "_").bind (fun ls =>
      (noot_print_value d).bind (fun ds =>
      (match r with
        | some rv => noot_print_value rv
        | none => some "_").map (fun rs =>
      "\x7b" ++ ls ++ " " ++ ds ++ " " ++ rs ++ "\x7d")))
  | .VFunction _ => some "function"
  | .VClosure _ _ => some "function"
  | .VError inner =>
      (noot_print_value inner).map (fun s => "Error: " ++ s)
termination_by v => 2 * sizeOf v + 1
decreasing_by
  all_goals simp_wf
  all_goals try simp [loopWeight]
  all_goals omega

/-- The `List` case of `noot_print`: the `while` walk over `head`/`tail`
with the `printed` space flag, followed by the trailing
`if (curr && curr->type != Nil)` print of an improper tail. A node with an
absent head ends the loop but then re-prints the very same node (its type is
`List`, not `Nil`), so the source recurses forever: `none`. A null `tail`
pointer is dereferenced by the loop condition of the next iteration:
`none`. -/
def printLoop : NootValue → Bool → Option String
  | .VList (some h) (some t), printed =>
      (noot_print_value h).bind (fun hs =>
      (printLoop t true).map (fun rest =>
      (if printed then " " else "") ++ hs ++ rest))
  | .VList (some _) none, _ => none
  | .VList none _, _ => none
  | .VNil, _ => some ""
  | .VBool b, printed =>
      (noot_print_value (.VBool b)).map (fun s => (if printed then " " else "") ++ s)
  | .VInt i, printed =>
      (noot_print_value (.VInt i)).map (fun s => (if printed then " " else "") ++ s)
  | .VReal q, printed =>
      (noot_print_value (.VReal q)).map (fun s => (if printed then " " else "") ++ s)
  | .VString s, printed =>
      (noot_print_value (.VString s)).map (fun t => (if printed then " " else "") ++ t)
  | .VTree d l r, printed =>
      (noot_print_value (.VTree d l r)).map (fun s => (if printed then " " else "") ++ s)
  | .VFunction f, printed =>
      (noot_print_value (.VFunction f)).map (fun s => (if printed then " " else "") ++ s)
  | .VClosure f c, printed =>
      (noot_print_value (.VClosure f c)).map (fun s => (if printed then " " else "") ++ s)
  | .VError x, printed =>
      (noot_print_value (.VError x)).map (fun s => (if printed then " " else "") ++ s)
termination_by v _ => 2 * sizeOf v + loopWeight v
decreasing_by
  all_goals simp_wf
  all_goals try simp [loopWeight]
  all_goals try split
  all_goals omega

end

/-- The variadic `noot_print` entry point: `count >= 1 ? args[0] : NOOT_NIL`
selects the value; the function writes its text and returns
`new_bool(true)`. The pair is (text written, return value). -/
def noot_print (args : List NootValue) : Option String × NootValue :=
  (noot_print_value (args.headD .VNil), .VBool true)

/-- Model of `noot_println`: print, then a newline, returning the result of
`noot_print`. -/
def noot_println (args : List NootValue) : Option String × NootValue :=
  let r := noot_print args
  ((r.1).map (fun s => s ++ "\n"), r.2)

/-- What the `noot_panic` primitive prints before the call-stack trace:
`\nNoot panicked:\n` then `noot_println` of its arguments. -/
def noot_panic_text (args : List NootValue) : Option String :=
  (noot_println args).1.map (fun s => "\nNoot panicked:\n" ++ s)

/-- The `bin_fn(noot_add)` wrapper: absent operands are Nil. -/
def noot_add_fn (args : List NootValue) : Outcome NootValue :=
  noot_add (args.headD .VNil) (args.getD 1 .VNil)

/-- The `bin_fn(noot_sub)` wrapper. -/
def noot_sub_fn (args : List NootValue) : Outcome NootValue :=
  noot_sub (args.headD .VNil) (args.getD 1 .VNil)

/-- The `bin_fn(noot_mul)` wrapper. -/
def noot_mul_fn (args : List NootValue) : Outcome NootValue :=
  noot_mul (args.headD .VNil) (args.getD 1 .VNil)

/-- The `bin_fn(noot_div)` wrapper. -/
def noot_div_fn (args : List NootValue) : Outcome NootValue :=
  noot_div (args.headD .VNil) (args.getD 1 .VNil)

/-- The `bin_fn(noot_rem)` wrapper. -/
def noot_rem_fn (args : List NootValue) : Outcome NootValue :=
  noot_rem (args.headD .VNil) (args.getD 1 .VNil)

/-- The `bin_fn(noot_eq)` wrapper. -/
def noot_eq_fn (args : List NootValue) : Outcome NootValue :=
  noot_eq (args.headD .VNil) (args.getD 1 .VNil)

/-- The `bin_fn(noot_neq)` wrapper. -/
def noot_neq_fn (args : List NootValue) : Outcome NootValue :=
  noot_neq (args.headD .VNil) (args.getD 1 .VNil)

/-- The `bin_fn(noot_lt)` wrapper. -/
def noot_lt_fn (args : List NootValue) : Outcome NootValue :=
  noot_lt (args.headD .VNil) (args.getD 1 .VNil)

/-- The `bin_fn(noot_le)` wrapper. -/
def noot_le_fn (args : List NootValue) : Outcome NootValue :=
  noot_le (args.headD .VNil) (args.getD 1 .VNil)

/-- The `bin_fn(noot_gt)` wrapper. -/
def noot_gt_fn (args : List NootValue) : Outcome NootValue :=
  noot_gt (args.headD .VNil) (args.getD 1 .VNil)

/-- The `bin_fn(noot_ge)` wrapper. -/
def noot_ge_fn (args : List NootValue) : Outcome NootValue :=
  noot_ge (args.headD .VNil) (args.getD 1 .VNil)

/-- Build the linked list with the given elements, ending in `tail`
(every link pointer present). -/
def listFrom : List NootValue → NootValue → NootValue
  | [], t => t
  | x :: xs, t => .VList (some x) (some (listFrom xs t))

/-- Space-join where every element carries a leading space (the shape the
list-print loop emits once something was already printed). -/
def spaceJoinTail : List String → String
  | [] => ""
  | s :: rest => " " ++ s ++ spaceJoinTail rest

/-- Space-separated join: first element bare, the rest with leading
spaces. -/
def spaceJoin : List String → String
  | [] => ""
  | s :: rest => s ++ spaceJoinTail rest

/-- Specification-side description of the stripping step of the Real printer:
the fixed-point text with its trailing zeros and trailing decimal point
removed, scanning from the end. -/
def stripSpec (s : String) : String :=
  String.mk ((s.data.reverse.dropWhile (fun c => c == '0' || c == '.')).reverse)

/-- The decimal literal 3.14 denotes the rational 157/50. -/
lemma ratLit314 : (3.14 : ℚ) = Rat.mk' 157 50 := by
  have h := Rat.num_div_den (Rat.mk' 157 50)
  norm_num at h ⊢
  exact h

/-- Lemma: `noot_eq_impl` never reaches a panic: every case of the switch returns
(or, for List/Tree, falls off the end). -/
theorem noot_eq_impl_no_panic : ∀ (a b : NootValue) (p : NootPanic),
    noot_eq_impl a b ≠ Outcome.panic p
  | .VError x, .VError y, p => by
      simpa [noot_eq_impl] using noot_eq_impl_no_panic x y p
  | .VError _, .VNil, _ => by simp [noot_eq_impl]
  | .VError _, .VBool _, _ => by simp [noot_eq_impl]
  | .VError _, .VInt _, _ => by simp [noot_eq_impl]
  | .VError _, .VReal _, _ => by simp [noot_eq_impl]
  | .VError _, .VString _, _ => by simp [noot_eq_impl]
  | .VError _, .VList _ _, _ => by simp [noot_eq_impl]
  | .VError _, .VTree _ _ _, _ => by simp [noot_eq_impl]
  | .VError _, .VFunction _, _ => by simp [noot_eq_impl]
  | .VError _, .VClosure _ _, _ => by simp [noot_eq_impl]
  | .VNil, b, _ => by cases b <;> simp [noot_eq_impl]
  | .VBool _, b, _ => by cases b <;> simp [noot_eq_impl]
  | .VInt _, b, _ => by cases b <;> simp [noot_eq_impl]
  | .VReal _, b, _ => by cases b <;> simp [noot_eq_impl]
  | .VString _, b, _ => by cases b <;> simp [noot_eq_impl]
  | .VFunction _, b, _ => by cases b <;> simp [noot_eq_impl]
  | .VClosure _ _, b, _ => by cases b <;> simp [noot_eq_impl]
  | .VList _ _, _, _ => by simp [noot_eq_impl]
  | .VTree _ _ _, _, _ => by simp [noot_eq_impl]

/-- The stripping scan stops at an index no larger than where it started. -/
lemma scanIdx_le : ∀ (s : List Char) (i j : ℕ), scanIdx s i = some j → j ≤ i
  | s, 0, j => by
      simp only [scanIdx]
      cases s[0]? with
      | none => simp
      | some c =>
          by_cases hc : c = '0' ∨ c = '.' <;> simp [hc]
          omega
  | s, i + 1, j => by
      simp only [scanIdx]
      cases s[i + 1]? with
      | none => simp
      | some c =>
          by_cases hc : c = '0' ∨ c = '.' <;> simp [hc]
          · intro h
            have := scanIdx_le s i j h
            omega
          · omega

/-- Appending one character does not change the scan started strictly inside
the original list. -/
lemma scanIdx_append : ∀ (t : List Char) (c : Char) (i : ℕ), i < t.length →
    scanIdx (t ++ [c]) i = scanIdx t i
  | t, c, 0, h => by
      simp only [scanIdx, List.getElem?_append_left h]
  | t, c, i + 1, h => by
      simp only [scanIdx, List.getElem?_append_left h]
      cases t[i + 1]? with
      | none => rfl
      | some d =>
          by_cases hd : d = '0' ∨ d = '.' <;> simp [hd]
          exact scanIdx_append t c i (by omega)

/-- The backward stripping scan agrees with dropping the trailing run of
`'0'`/`'.'` characters, whenever at least one character is not in that run
(otherwise the C loop underruns the buffer). -/
lemma scanPrint_strip (s : List Char) (h : ∃ c ∈ s, ¬(c = '0' ∨ c = '.')) :
    scanPrint s = some ((s.reverse.dropWhile (fun c => c == '0' || c == '.')).reverse) := by
  induction s using List.reverseRecOn with
  | nil => simp at h
  | append_singleton t c ih =>
      have hgetc : (t ++ [c])[t.length]? = some c := List.getElem?_concat_length t c
      rcases Nat.eq_zero_or_pos t.length with ht | ht
      · have ht2 : t = [] := List.length_eq_zero.mp ht
        subst ht2
        simp only [List.nil_append] at h ⊢
        have hc : ¬(c = '0' ∨ c = '.') := by simpa using h
        have hcb : (c == '0' || c == '.') = false := by
          simp only [Bool.or_eq_false_iff, beq_eq_false_iff_ne, ne_eq]
          exact ⟨fun h1 => hc (Or.inl h1), fun h2 => hc (Or.inr h2)⟩
        simp [scanPrint, scanIdx, hc, List.dropWhile, hcb]
      · obtain ⟨j, hj⟩ : ∃ j, t.length = j + 1 := ⟨t.length - 1, by omega⟩
        have hlen : (t ++ [c]).length = t.length + 1 := by simp
        by_cases hc : c = '0' ∨ c = '.'
        · have hcb : (c == '0' || c == '.') = true := by
            rcases hc with h1 | h1 <;> simp [h1]
          have hmem : ∃ d ∈ t, ¬(d = '0' ∨ d = '.') := by
            rcases h with ⟨d, hd, hnd⟩
            rcases List.mem_append.mp hd with hd | hd
            · exact ⟨d, hd, hnd⟩
            · simp only [List.mem_singleton] at hd
              subst hd
              exact absurd hc hnd
          have hrec := ih hmem
          simp only [scanPrint, hj] at hrec
          cases hscan : scanIdx t j with
          | none => simp [hscan] at hrec
          | some j0 =>
              simp only [hscan, Option.map_some'] at hrec
              have hj0 : j0 ≤ j := scanIdx_le t j j0 hscan
              have step : scanIdx (t ++ [c]) (t.length) = scanIdx t j := by
                rw [hj] at hgetc ⊢
                simp only [scanIdx, hgetc]
                rw [if_pos hc]
                exact scanIdx_append t c j (by omega)
              simp only [scanPrint, hlen, step, hscan, Option.map_some']
              have htake : (t ++ [c]).take (j0 + 1) = t.take (j0 + 1) :=
                List.take_append_of_le_length (by omega)
              rw [htake]
              simp only [List.reverse_append, List.reverse_cons, List.reverse_nil,
                List.nil_append, List.singleton_append, List.dropWhile, hcb]
              rw [hrec]
        · have hcb : (c == '0' || c == '.') = false := by
            simp only [Bool.or_eq_false_iff, beq_eq_false_iff_ne, ne_eq]
            exact ⟨fun h1 => hc (Or.inl h1), fun h2 => hc (Or.inr h2)⟩
          have step : scanIdx (t ++ [c]) (t.length) = some t.length := by
            rw [hj] at hgetc ⊢
            simp only [scanIdx, hgetc]
            rw [if_neg hc]
          simp only [scanPrint, hlen, step, Option.map_some']
          have hfull : (t ++ [c]).take (t.length + 1) = t ++ [c] := by
            apply List.take_of_length_le
            simp
          rw [hfull]
          simp [List.dropWhile, hcb]

/-- Relation between a value and the text the printer writes for it. -/
def PrintsTo (v : NootValue) (s : String) : Prop := noot_print_value v = some s

/-- The list-print loop over a Nil-terminated list, with the space flag
already set: each element is emitted with a leading space. -/
lemma printLoop_nil_tail : ∀ (xs : List NootValue) (ss : List String),
    List.Forall₂ PrintsTo xs ss →
    printLoop (listFrom xs .VNil) true = some (spaceJoinTail ss)
  | [], [], _ => by simp [listFrom, printLoop, spaceJoinTail]
  | x :: xs, sx :: ss, h => by
      rcases List.forall₂_cons.mp h with ⟨hx, hxs⟩
      simp only [PrintsTo] at hx
      have ih := printLoop_nil_tail xs ss hxs
      simp [listFrom, printLoop, hx, ih, spaceJoinTail]
  | [], _ :: _, h => by simp at h
  | _ :: _, [], h => by simp at h

/-- The list-print loop over a list with an improper (non-List, non-Nil)
tail, space flag set: the elements then the tail, each with a leading
space. -/
lemma printLoop_improper_tail : ∀ (t : NootValue), typeOf t ≠ .List → t ≠ .VNil →
    ∀ (st : String), noot_print_value t = some st →
    ∀ (xs : List NootValue) (ss : List String), List.Forall₂ PrintsTo xs ss →
    printLoop (listFrom xs t) true = some (spaceJoinTail (ss ++ [st]))
  | t, htl, htn, st, hst, [], [], _ => by
      cases t <;> simp [typeOf] at htl <;>
        simp_all [listFrom, printLoop, spaceJoinTail]
  | t, htl, htn, st, hst, x :: xs, sx :: ss, h => by
      rcases List.forall₂_cons.mp h with ⟨hx, hxs⟩
      simp only [PrintsTo] at hx
      have ih := printLoop_improper_tail t htl htn st hst xs ss hxs
      simp [listFrom, printLoop, hx, ih, spaceJoinTail]
  | _, _, _, _, _, [], _ :: _, h => by simp at h
  | _, _, _, _, _, _ :: _, [], h => by simp at h

/-- C1, counterexample: on Ints, where comparison is defined, `noot_le` is
`lt || eq`, not plain equality: `le(1,2)` is true while `eq(1,2)` is false,
and `ge(2,1)` is true while `eq(2,1)` is false. -/
theorem le_ge_plain_eq_cx :
    noot_le (.VInt 1) (.VInt 2) ≠ noot_eq (.VInt 1) (.VInt 2) ∧
    noot_ge (.VInt 2) (.VInt 1) ≠ noot_eq (.VInt 2) (.VInt 1) := by
  constructor
  · intro h
    have h2 : Outcome.ok (NootValue.VBool true) = Outcome.ok (NootValue.VBool false) := h
    simp at h2
  · intro h
    have h2 : Outcome.ok (NootValue.VBool true) = Outcome.ok (NootValue.VBool false) := h
    simp at h2

/-- C1 (amended): on Error operands the delegation to plain equality does
hold — for every pair of Error values, `noot_le` and `noot_ge` return
exactly what `noot_eq` returns, because `noot_lt_impl`/`noot_gt_impl`
delegate to payload equality there. -/
theorem le_ge_eq_on_errors :
    ∀ x y : NootValue,
      noot_le (.VError x) (.VError y) = noot_eq (.VError x) (.VError y) ∧
      noot_ge (.VError x) (.VError y) = noot_eq (.VError x) (.VError y) := by
  intro x y
  constructor
  · simp only [noot_le, noot_eq, noot_lt_impl, noot_eq_impl]
    cases noot_eq_impl x y with
    | ok b => cases b <;> simp [Outcome.map]
    | panic p => simp [Outcome.map]
    | undefined => simp [Outcome.map]
  · simp only [noot_ge, noot_eq, noot_gt_impl, noot_eq_impl]
    cases noot_eq_impl x y with
    | ok b => cases b <;> simp [Outcome.map]
    | panic p => simp [Outcome.map]
    | undefined => simp [Outcome.map]

/-- C2 (confirmed): adding a String and an Int never returns a value: for
every byte buffer and every integer, `noot_add` reaches
`noot_binary_type_panic`, whose formatted message names the two offending
discriminants `string` and `int`. -/
theorem add_string_int_panics :
    ∀ (s : List ℕ) (n : ℤ),
      noot_add (.VString s) (.VInt n) =
        .panic (.typeError "Attempted to add incompatible types string and int") := by
  intro s n
  rfl

/-- C3 (code bug): `noot_eq_impl` has no `List` (or `Tree`) case and falls
off the end of a non-void function, so `eq(a,a)` on a List value — here the
one-element list `[1]` — has an undefined result instead of the claimed
`true`; likewise for a Tree value. -/
theorem eq_list_self_undefined :
    noot_eq_impl (.VList (some (.VInt 1)) (some .VNil))
        (.VList (some (.VInt 1)) (some .VNil)) = .undefined ∧
    noot_eq_impl (.VTree .VNil none none) (.VTree .VNil none none) = .undefined :=
  ⟨rfl, rfl⟩

/-- C9 (confirmed): on two Error values both ordering impls return exactly
the recursive payload equality `noot_eq_impl`, and neither can panic (the
equality recursion never reaches a panic). -/
theorem error_ordering_delegates_eq :
    ∀ x y : NootValue,
      noot_lt_impl (.VError x) (.VError y) = noot_eq_impl x y ∧
      noot_gt_impl (.VError x) (.VError y) = noot_eq_impl x y ∧
      (∀ p, noot_lt_impl (.VError x) (.VError y) ≠ .panic p) ∧
      (∀ p, noot_gt_impl (.VError x) (.VError y) ≠ .panic p) := by
  intro x y
  refine ⟨rfl, rfl, ?_, ?_⟩
  · intro p h
    exact noot_eq_impl_no_panic x y p h
  · intro p h
    exact noot_eq_impl_no_panic x y p h

/-- C5 (confirmed): for each of `add`, `sub`, `mul`, `div`, `rem`, Int with
Int yields an Int with native integer semantics (`div` truncating toward
zero and defined only for a nonzero divisor, `rem` the truncating
remainder), every Int/Real mix yields a Real, and each mixed call equals
the call with the Int operand promoted to Real — in particular
`add(a,b) = add(real(a),b)`. -/
theorem arith_promotion :
    ∀ (a b : ℤ) (r : ℚ),
      noot_add (.VInt a) (.VInt b) = .ok (.VInt (a + b)) ∧
      noot_sub (.VInt a) (.VInt b) = .ok (.VInt (a - b)) ∧
      noot_mul (.VInt a) (.VInt b) = .ok (.VInt (a * b)) ∧
      (b ≠ 0 → noot_div (.VInt a) (.VInt b) = .ok (.VInt (a.tdiv b))) ∧
      (b ≠ 0 → noot_rem (.VInt a) (.VInt b) = .ok (.VInt (a.tmod b))) ∧
      noot_add (.VInt a) (.VReal r) = .ok (.VReal ((a : ℚ) + r)) ∧
      noot_add (.VReal r) (.VInt a) = .ok (.VReal (r + (a : ℚ))) ∧
      noot_sub (.VInt a) (.VReal r) = .ok (.VReal ((a : ℚ) - r)) ∧
      noot_sub (.VReal r) (.VInt a) = .ok (.VReal (r - (a : ℚ))) ∧
      noot_mul (.VInt a) (.VReal r) = .ok (.VReal ((a : ℚ) * r)) ∧
      noot_mul (.VReal r) (.VInt a) = .ok (.VReal (r * (a : ℚ))) ∧
      noot_div (.VInt a) (.VReal r) = .ok (.VReal ((a : ℚ) / r)) ∧
      noot_div (.VReal r) (.VInt a) = .ok (.VReal (r / (a : ℚ))) ∧
      noot_rem (.VInt a) (.VReal r) = .ok (.VReal (cFmod (a : ℚ) r)) ∧
      noot_rem (.VReal r) (.VInt a) = .ok (.VReal (cFmod r (a : ℚ))) ∧
      noot_add (.VInt a) (.VReal r) = noot_add (.VReal ((a : ℚ))) (.VReal r) ∧
      noot_sub (.VInt a) (.VReal r) = noot_sub (.VReal ((a : ℚ))) (.VReal r) ∧
      noot_mul (.VInt a) (.VReal r) = noot_mul (.VReal ((a : ℚ))) (.VReal r) ∧
      noot_div (.VInt a) (.VReal r) = noot_div (.VReal ((a : ℚ))) (.VReal r) ∧
      noot_rem (.VInt a) (.VReal r) = noot_rem (.VReal ((a : ℚ))) (.VReal r) := by
  intro a b r
  refine ⟨rfl, rfl, rfl, ?_, ?_, rfl, rfl, rfl, rfl, rfl, rfl, rfl, rfl, rfl,
    rfl, rfl, rfl, rfl, rfl, rfl⟩
  · intro h
    simp [noot_div, h]
  · intro h
    simp [noot_rem, h]

/-- C5, witness: the divisor-nonzero hypotheses discharged at `7` and `2`. -/
theorem arith_promotion_witness :
    ((2 : ℤ) ≠ 0) ∧
    noot_div (.VInt 7) (.VInt 2) = .ok (.VInt ((7 : ℤ).tdiv 2)) ∧
    noot_rem (.VInt 7) (.VInt 2) = .ok (.VInt ((7 : ℤ).tmod 2)) := by
  have h := arith_promotion 7 2 0
  exact ⟨by decide, h.2.2.2.1 (by decide), h.2.2.2.2.1 (by decide)⟩

/-- C7 (confirmed): logical `not` inverts a Bool, maps Nil to true, and
maps every value of any other discriminant (Error included) to false; its
embedding returns a plain value, so it cannot panic. -/
theorem not_spec :
    (∀ b : Bool, noot_not [.VBool b] = .VBool (!b)) ∧
    noot_not [.VNil] = .VBool true ∧
    (∀ v, typeOf v ≠ .Bool → typeOf v ≠ .Nil → noot_not [v] = .VBool false) := by
  refine ⟨fun b => rfl, rfl, ?_⟩
  intro v h1 h2
  cases v <;> simp [noot_not, typeOf] <;> simp [typeOf] at h1 h2

/-- C7, witness: the other-discriminant hypotheses discharged on an Error
value. -/
theorem not_spec_witness :
    (typeOf (.VError .VNil) ≠ NootType.Bool) ∧
    (typeOf (.VError .VNil) ≠ NootType.Nil) ∧
    noot_not [.VError .VNil] = .VBool false :=
  ⟨by decide, by decide, not_spec.2.2 (.VError .VNil) (by decide) (by decide)⟩

/-- C8 (confirmed): `assert` returns a truthy condition value unchanged and
panics on a falsy one, with the remaining arguments as the payload when
present and the whole argument list (the condition itself) otherwise;
truthiness is Bool-as-is with Nil and Error falsy; concretely,
`assert(false, "boom")` panics with payload `"boom"` (which prints as
`boom`) and `assert(true)` returns the true value. -/
theorem assert_spec :
    (∀ v args, noot_is_true v = true → noot_assert (v :: args) = .ok v) ∧
    (∀ v args, noot_is_true v = false → args ≠ [] →
        noot_assert (v :: args) = .panic (.userPanic args)) ∧
    (∀ v, noot_is_true v = false → noot_assert [v] = .panic (.userPanic [v])) ∧
    (∀ b : Bool, noot_is_true (.VBool b) = b) ∧
    noot_is_true .VNil = false ∧
    (∀ x, noot_is_true (.VError x) = false) ∧
    noot_assert [.VBool true] = .ok (.VBool true) ∧
    noot_assert [.VBool false, .VString [98, 111, 111, 109]] =
      .panic (.userPanic [.VString [98, 111, 111, 109]]) ∧
    noot_print_value (.VString [98, 111, 111, 109]) = some "boom" := by
  refine ⟨?_, ?_, ?_, fun b => rfl, rfl, fun x => rfl, rfl, rfl, ?_⟩
  · intro v args h
    simp [noot_assert, h]
  · intro v args h hne
    rcases List.exists_cons_of_ne_nil hne with ⟨a2, rest, rfl⟩
    simp [noot_assert, h]
  · intro v h
    simp [noot_assert, h]
  · simp [noot_print_value]
    rfl

/-- C8, witness: the truthiness hypotheses discharged at `true` and at
`false` with the `"boom"` payload. -/
theorem assert_spec_witness :
    noot_is_true (.VBool true) = true ∧
    noot_assert [.VBool true] = .ok (.VBool true) ∧
    noot_is_true (.VBool false) = false ∧
    noot_assert [.VBool false, .VString [98, 111, 111, 109]] =
      .panic (.userPanic [.VString [98, 111, 111, 109]]) :=
  ⟨rfl, assert_spec.1 (.VBool true) [] rfl, rfl,
    assert_spec.2.1 (.VBool false) [.VString [98, 111, 111, 109]] rfl (by simp)⟩

/-- C10 (confirmed): every variadic primitive substitutes Nil for missing
arguments: `print` with no arguments prints `nil` and still returns the
Bool true marker, `not` with no arguments returns true, `assert` with no
arguments treats the condition as Nil (falsy) and panics with the empty
payload, and each `bin_fn` wrapper applies its operator to Nil in place of
each absent operand. -/
theorem variadic_nil_defaults :
    noot_print [] = (some "nil", .VBool true) ∧
    noot_not [] = .VBool true ∧
    noot_assert [] = .panic (.userPanic []) ∧
    (∀ a : NootValue,
      noot_add_fn [] = noot_add .VNil .VNil ∧ noot_add_fn [a] = noot_add a .VNil ∧
      noot_sub_fn [] = noot_sub .VNil .VNil ∧ noot_sub_fn [a] = noot_sub a .VNil ∧
      noot_mul_fn [] = noot_mul .VNil .VNil ∧ noot_mul_fn [a] = noot_mul a .VNil ∧
      noot_div_fn [] = noot_div .VNil .VNil ∧ noot_div_fn [a] = noot_div a .VNil ∧
      noot_rem_fn [] = noot_rem .VNil .VNil ∧ noot_rem_fn [a] = noot_rem a .VNil ∧
      noot_eq_fn [] = noot_eq .VNil .VNil ∧ noot_eq_fn [a] = noot_eq a .VNil ∧
      noot_neq_fn [] = noot_neq .VNil .VNil ∧ noot_neq_fn [a] = noot_neq a .VNil ∧
      noot_lt_fn [] = noot_lt .VNil .VNil ∧ noot_lt_fn [a] = noot_lt a .VNil ∧
      noot_le_fn [] = noot_le .VNil .VNil ∧ noot_le_fn [a] = noot_le a .VNil ∧
      noot_gt_fn [] = noot_gt .VNil .VNil ∧ noot_gt_fn [a] = noot_gt a .VNil ∧
      noot_ge_fn [] = noot_ge .VNil .VNil ∧ noot_ge_fn [a] = noot_ge a .VNil) := by
  refine ⟨?_, rfl, rfl, ?_⟩
  · simp only [noot_print, List.headD_nil]
    simp [noot_print_value]
  · intro a
    exact ⟨rfl, rfl, rfl, rfl, rfl, rfl, rfl, rfl, rfl, rfl, rfl, rfl, rfl,
      rfl, rfl, rfl, rfl, rfl, rfl, rfl, rfl, rfl⟩

/-- C4, counterexample: on the Real `0.0` the formatted text `0.000000`
consists solely of `'0'` and `'.'`, the stripping loop runs past the start
of the buffer (undefined behavior), and the printer produces no defined
rendering at all — in particular not the claimed stripped fixed-point
text. -/
theorem print_real_zero_cx :
    noot_print_value (.VReal 0) = none ∧
    noot_print_value (.VReal 0) ≠ some (stripSpec (fixed6 0)) := by
  have h : noot_print_value (.VReal 0) = none := by
    simp [noot_print_value]
    rfl
  refine ⟨h, ?_⟩
  rw [h]
  exact fun hs => Option.noConfusion hs

/-- C4 (amended): the printer renders Int 3 as `3`, Real 3.0 as `3` and
Real 3.14 as `3.14`; and for every Real whose six-decimal fixed-point
rendering fits the 50-byte buffer and contains at least one character that
is neither `'0'` nor `'.'`, the printed text is that rendering with the
trailing run of `'0'`/`'.'` characters stripped, the scan from the end
stopping exactly at the first character outside that set. -/
theorem print_real_rendering :
    noot_print_value (.VInt 3) = some "3" ∧
    noot_print_value (.VReal 3) = some "3" ∧
    noot_print_value (.VReal 3.14) = some "3.14" ∧
    (∀ q : ℚ, (fixed6 q).length ≤ 49 →
      (∃ c ∈ (fixed6 q).data, ¬(c = '0' ∨ c = '.')) →
      noot_print_value (.VReal q) = some (stripSpec (fixed6 q))) := by
  refine ⟨?_, ?_, ?_, ?_⟩
  · simp [noot_print_value]
    rfl
  · simp [noot_print_value]
    rfl
  · rw [ratLit314]
    simp [noot_print_value]
    rfl
  · intro q hlen hex
    have hs := scanPrint_strip (fixed6 q).data hex
    simp only [noot_print_value, printRealStr]
    rw [if_neg (by omega : ¬ 49 < (fixed6 q).length)]
    rw [hs]
    simp [stripSpec]

/-- C4, witness: the buffer-fit and stopping-character hypotheses
discharged at `3.14`. -/
theorem print_real_rendering_witness :
    (fixed6 3.14).length ≤ 49 ∧
    (∃ c ∈ (fixed6 3.14).data, ¬(c = '0' ∨ c = '.')) ∧
    noot_print_value (.VReal 3.14) = some (stripSpec (fixed6 3.14)) := by
  have h1 : (fixed6 (3.14 : ℚ)).length ≤ 49 := by
    rw [ratLit314]
    decide
  have h2 : ∃ c ∈ (fixed6 (3.14 : ℚ)).data, ¬(c = '0' ∨ c = '.') := by
    rw [ratLit314]
    decide
  exact ⟨h1, h2, print_real_rendering.2.2.2 3.14 h1 h2⟩

/-- C6 (confirmed): list printing walks head-then-tail, emitting `[`, then
the elements space-separated; a non-List non-Nil tail is printed as one
trailing bare element before `]`. Concretely `[1 2 3]` for the
Nil-terminated list of 1,2,3 and `[1 2 3 4]` for the same list with
improper tail 4; in general, a nonempty Nil-terminated list prints its
elements space-joined in brackets, and an improper tail is appended as a
final element. -/
theorem print_list_spec :
    noot_print_value (listFrom [.VInt 1, .VInt 2, .VInt 3] .VNil) = some "[1 2 3]" ∧
    noot_print_value (listFrom [.VInt 1, .VInt 2, .VInt 3] (.VInt 4)) = some "[1 2 3 4]" ∧
    (∀ (x : NootValue) (xs : List NootValue) (sx : String) (ss : List String),
      List.Forall₂ PrintsTo (x :: xs) (sx :: ss) →
      noot_print_value (listFrom (x :: xs) .VNil) =
        some ("[" ++ spaceJoin (sx :: ss) ++ "]")) ∧
    (∀ (t : NootValue), typeOf t ≠ .List → t ≠ .VNil → ∀ (st : String),
      noot_print_value t = some st →
      ∀ (x : NootValue) (xs : List NootValue) (sx : String) (ss : List String),
      List.Forall₂ PrintsTo (x :: xs) (sx :: ss) →
      noot_print_value (listFrom (x :: xs) t) =
        some ("[" ++ spaceJoin (sx :: (ss ++ [st])) ++ "]")) := by
  refine ⟨?_, ?_, ?_, ?_⟩
  · simp [noot_print_value, printLoop, listFrom]
    rfl
  · simp [noot_print_value, printLoop, listFrom]
    rfl
  · intro x xs sx ss h
    rcases List.forall₂_cons.mp h with ⟨hx, hxs⟩
    simp only [PrintsTo] at hx
    have hl := printLoop_nil_tail xs ss hxs
    simp only [listFrom, noot_print_value, printLoop, hx, hl, Option.bind_some,
      Option.map_some', spaceJoin]
    rfl
  · intro t htl htn st hst x xs sx ss h
    rcases List.forall₂_cons.mp h with ⟨hx, hxs⟩
    simp only [PrintsTo] at hx
    have hl := printLoop_improper_tail t htl htn st hst xs ss hxs
    simp only [listFrom, noot_print_value, printLoop, hx, hl, Option.bind_some,
      Option.map_some', spaceJoin]
    rfl

/-- C6, witness: the element-printing hypotheses discharged on the list of
1,2,3 with a Nil tail and with the improper tail 4. -/
theorem print_list_spec_witness :
    List.Forall₂ PrintsTo [.VInt 1, .VInt 2, .VInt 3] ["1", "2", "3"] ∧
    noot_print_value (listFrom [.VInt 1, .VInt 2, .VInt 3] .VNil) =
      some ("[" ++ spaceJoin ["1", "2", "3"] ++ "]") ∧
    typeOf (.VInt 4) ≠ NootType.List ∧
    noot_print_value (.VInt 4) = some "4" ∧
    noot_print_value (listFrom [.VInt 1, .VInt 2, .VInt 3] (.VInt 4)) =
      some ("[" ++ spaceJoin ["1", "2", "3", "4"] ++ "]") := by
  have h1 : PrintsTo (.VInt 1) "1" := by
    simp [PrintsTo, noot_print_value]
    rfl
  have h2 : PrintsTo (.VInt 2) "2" := by
    simp [PrintsTo, noot_print_value]
    rfl
  have h3 : PrintsTo (.VInt 3) "3" := by
    simp [PrintsTo, noot_print_value]
    rfl
  have h4 : noot_print_value (.VInt 4) = some "4" := by
    simp [noot_print_value]
    rfl
  have hf : List.Forall₂ PrintsTo [.VInt 1, .VInt 2, .VInt 3] ["1", "2", "3"] :=
    List.Forall₂.cons h1 (List.Forall₂.cons h2 (List.Forall₂.cons h3 List.Forall₂.nil))
  exact ⟨hf, print_list_spec.2.2.1 _ _ _ _ hf, by decide, h4,
    print_list_spec.2.2.2 _ (by decide) (fun h => NootValue.noConfusion h) _ h4 _ _ _ _ hf⟩
